import Mathlib

/-!
# Verification of the app_view governance core

Shallow embedding of the vote-outcome engine, the VoteMeta reconciliation
jobs, the signed-action verifier, the eligibility-proof endpoint and the
`initiation_vote` transition of the `app_view` repository, together with
proofs of the claims of the spec about them.

Conventions used throughout:
* Rust `u64`/`i64`/`i32` values are modelled as `Nat`/`Int`; the claims under
  study stay far below the 2^64 wrap boundary, so overflow is outside the
  modelled domain (noted where relevant).
* Rust `f64` division (`a as f64 / b as f64`) is modelled as exact division
  in `ℚ`.  The only degenerate point is `0/0`, which is NaN in `f64` and
  fails every `≥ c` / `> c` threshold comparison with `c > 0`; in `ℚ` it is
  `0`, which fails those comparisons as well, so the two models agree on all
  verdicts.
* Database rows are Lean structures; a scheduler pass over a table is a
  `List.map` over the fetched rows, and every external collaborator
  (chain RPC, DID directory, weight oracle, hex/address codecs) is an
  explicit oracle field of an environment structure.
* The crate modules `smt` and `molecules` are declared in `lib.rs` but are
  not present in the source tree; they are modelled from the spec where
  needed, and each such definition carries a doc comment starting with
  `Modelled from the spec:`.
-/

namespace AppView

/-- Embedding of `ProposalState` from `src/lexicon/proposal.rs` (discriminants 0..13). -/
inductive ProposalState where
  | End
  | Draft
  | InitiationVote
  | WaitingForStartFund
  | InProgress
  | MilestoneVote
  | DelayVote
  | WaitingForMilestoneFund
  | WaitingForAcceptanceReport
  | Completed
  | WaitingReexamine
  | ReexamineVote
  | RectificationVote
  | WaitingRectification
deriving DecidableEq, Repr

/-- Embedding of `ProposalState::from(value: i32)` from `src/lexicon/proposal.rs`:
any unknown discriminant falls back to `Draft`. -/
def ProposalState.ofInt (value : Int) : ProposalState :=
  if value = 0 then .End
  else if value = 1 then .Draft
  else if value = 2 then .InitiationVote
  else if value = 3 then .WaitingForStartFund
  else if value = 4 then .InProgress
  else if value = 5 then .MilestoneVote
  else if value = 6 then .DelayVote
  else if value = 7 then .WaitingForMilestoneFund
  else if value = 8 then .WaitingForAcceptanceReport
  else if value = 9 then .Completed
  else if value = 10 then .WaitingReexamine
  else if value = 11 then .ReexamineVote
  else if value = 12 then .RectificationVote
  else if value = 13 then .WaitingRectification
  else .Draft

/-- Embedding of `VoteMetaState` from `src/lexicon/vote_meta.rs` (Waiting=0, Committed=1,
Timeout=2, Rejected=3, Finished=4).  The scheduler
(`src/scheduler/check_vote_meta_tx.rs`) additionally writes a `Changed`
state for a committed transaction whose payload differs from the canonical
re-encoding; that variant is carried here as well. -/
inductive VoteMetaState where
  | Waiting
  | Committed
  | Timeout
  | Rejected
  | Finished
  | Changed
deriving DecidableEq, Repr

/-- The vote verdict type used by `calculate_vote_result` in
`src/api/proposal.rs` (`Agree`, `Against(reason)`, `Failed(reason)`,
`Voting`). -/
inductive VoteResult where
  | Voting
  | Agree
  | Against (reason : String)
  | Failed (reason : String)
deriving DecidableEq, Repr

/-- Embedding of `VoteResults` from `src/lexicon/vote_meta.rs`, with the fields exactly as
constructed by `check_vote_meta_finished` (`src/scheduler/check_vote_finished.rs`,
lines 166-173). -/
structure VoteResults where
  vote_sum : Nat
  valid_vote_sum : Nat
  weight_sum : Nat
  valid_weight_sum : Nat
  valid_votes : List (List (String × Nat))
  candidate_votes : List Nat
deriving DecidableEq, Repr

/-- Embedding of `ProposalSample` from `src/lexicon/proposal.rs`, restricted to the parts
`calculate_vote_result` reads.  `budget` is the value of the chain
`record.pointer("/data/budget").and_then(as_str).and_then(parse::<u64>)`:
`some b` when the JSON record holds a string at `/data/budget` that parses
as a `u64`, `none` otherwise. -/
structure ProposalSample where
  state : Int
  budget : Option Nat
deriving DecidableEq, Repr

/-- The derived share `w as f64 / v as f64` computed by the outcome engine
(`src/api/proposal.rs`), with `f64` division modelled as exact division in
`ℚ` (see the file header).  `mkRat` is used so that the kernel can evaluate
it; `share_eq_div` below gives the usual `(w : ℚ) / (v : ℚ)` form (the two
agree at `v = 0` as well, both giving `0`). -/
def share (w v : Nat) : ℚ := mkRat w v

/-- The source literal `0.67`, modelled as the exact rational `67/100`. -/
def threshold67 : ℚ := mkRat 67 100

/-- The source literal `0.51`, modelled as the exact rational `51/100`. -/
def threshold51 : ℚ := mkRat 51 100

/-- The per-candidate derived share of a tally: the outcome engine computes
exactly `share (r.candidate_votes[i]) r.valid_weight_sum` at `i = 1`
(Agree) and `i = 2` (Against). -/
def VoteResults.shareOf (r : VoteResults) (i : Nat) : ℚ :=
  share (r.candidate_votes.getD i 0) r.valid_weight_sum

/-- Embedding of `calculate_vote_result` from `src/api/proposal.rs` lines 662-773.

The result is wrapped in `Option`: `none` models the Rust panic that occurs
when `results.candidate_votes[1]` (Agree) or `results.candidate_votes[2]`
(Against) is indexed out of bounds; every non-panicking path returns `some`.
The numeric literals are those of the source: quorum `1_8500_0000_0000_0000` for
initiation/reexamine of a `"BudgetProposal"`, `6200_0000_0000_0000` for the
other fixed-quorum stages, and budget multipliers `3_0000_0000` and
`1_0000_0000` (the declared budget is denominated in CKB while weights are
in shannons, 1 CKB = 10^8 shannons, as the
`10_000_000_000_000` = "100_000 ckb" minimum check shows). -/
def calculate_vote_result (proposal_state : Int) (proposal : ProposalSample)
    (results : VoteResults) (proposal_type : String) : Option VoteResult :=
  match ProposalState.ofInt proposal_state with
  | ProposalState.InitiationVote | ProposalState.ReexamineVote =>
    if proposal_type = "BudgetProposal" then
      if 1850000000000000 ≤ results.valid_weight_sum then
        match results.candidate_votes[1]? with
        | some w =>
          if threshold67 ≤ share w results.valid_weight_sum then
            some VoteResult.Agree
          else
            some (VoteResult.Against "agree rate not enough(67%)")
        | none => none
      else
        some (VoteResult.Failed "valid_weight_sum not enough(1.85T)")
    else
      match proposal.budget with
      | some proposal_budget =>
        if proposal_budget * 300000000 ≤ results.valid_weight_sum then
          match results.candidate_votes[1]? with
          | some w =>
            if threshold51 ≤ share w results.valid_weight_sum then
              some VoteResult.Agree
            else
              some (VoteResult.Against "agree rate not enough(51%)")
          | none => none
        else
          some (VoteResult.Failed "valid_weight_sum not enough(3x budget)")
      | none => some (VoteResult.Failed "unknown")
  | ProposalState.MilestoneVote | ProposalState.DelayVote =>
    if proposal_type = "BudgetProposal" then
      if 6200000000000000 ≤ results.valid_weight_sum then
        match results.candidate_votes[2]? with
        | some w =>
          if threshold67 < share w results.valid_weight_sum then
            some (VoteResult.Against "against rate too high(67%)")
          else
            some VoteResult.Agree
        | none => none
      else
        some VoteResult.Agree
    else
      match proposal.budget with
      | some proposal_budget =>
        if proposal_budget * 100000000 ≤ results.valid_weight_sum then
          match results.candidate_votes[2]? with
          | some w =>
            if threshold51 < share w results.valid_weight_sum then
              some (VoteResult.Against "against rate too high(51%)")
            else
              some VoteResult.Agree
          | none => none
        else
          some VoteResult.Agree
      | none => some (VoteResult.Failed "unknown")
  | ProposalState.RectificationVote =>
    if proposal_type = "BudgetProposal" then
      if 6200000000000000 ≤ results.valid_weight_sum then
        match results.candidate_votes[1]? with
        | some w =>
          if threshold67 ≤ share w results.valid_weight_sum then
            some VoteResult.Agree
          else
            some (VoteResult.Against "agree rate not enough(67%)")
        | none => none
      else
        some (VoteResult.Against "valid_weight_sum not enough(1.85T)")
    else
      match proposal.budget with
      | some proposal_budget =>
        if proposal_budget * 100000000 ≤ results.valid_weight_sum then
          match results.candidate_votes[1]? with
          | some w =>
            if threshold51 ≤ share w results.valid_weight_sum then
              some VoteResult.Agree
            else
              some (VoteResult.Against "agree rate not enough(51%)")
          | none => none
        else
          some (VoteResult.Against "valid_weight_sum not enough(3x budget)")
      | none => some (VoteResult.Failed "unknown")
  | _ => some (VoteResult.Failed "unknown")

/-- One row of the `all_votes` indexer response as read by
`check_vote_meta_finished` (`src/scheduler/check_vote_finished.rs` lines
139-153): the address of the voter, the first entry of its `voteIndex` array,
and the weight fetched from the weight oracle (`unwrap_or(0)` on oracle
failure is folded into this field). -/
structure IndexedVote where
  ckb_addr : String
  vote_index : Int
  weight : Nat
deriving DecidableEq, Repr

/-- One iteration of the tally loop of `check_vote_meta_finished`
(`src/scheduler/check_vote_finished.rs` lines 139-164): the weight of a vote
always accrues to `weight_sum`; when `vote_index as usize` addresses an
existing candidate slot (a negative `i64` becomes a huge `usize`, hence is
out of range) the vote additionally counts into `valid_vote_sum`,
`valid_weight_sum`, `candidate_votes` and `valid_votes`. -/
def tallyStep (acc : VoteResults) (v : IndexedVote) : VoteResults :=
  let acc1 := { acc with weight_sum := acc.weight_sum + v.weight }
  if 0 ≤ v.vote_index ∧ v.vote_index.toNat < acc1.candidate_votes.length then
    { acc1 with
      valid_vote_sum := acc1.valid_vote_sum + 1
      valid_weight_sum := acc1.valid_weight_sum + v.weight
      candidate_votes := acc1.candidate_votes.set v.vote_index.toNat
        (acc1.candidate_votes.getD v.vote_index.toNat 0 + v.weight)
      valid_votes := acc1.valid_votes.set v.vote_index.toNat
        (acc1.valid_votes.getD v.vote_index.toNat []
          ++ [(v.ckb_addr, v.weight)]) }
  else acc1

/-- The complete tally computation of `check_vote_meta_finished`
(`src/scheduler/check_vote_finished.rs` lines 133-173): accumulators are
zero-initialised with one slot per candidate and folded over the indexer
vote list. -/
def tallyVotes (candidates : List String) (votes : List IndexedVote) :
    VoteResults :=
  votes.foldl tallyStep
    { vote_sum := votes.length
      valid_vote_sum := 0
      weight_sum := 0
      valid_weight_sum := 0
      valid_votes := List.replicate candidates.length []
      candidate_votes := List.replicate candidates.length 0 }

/-- The generic signed request body `SignedBody<T>` from `src/api/mod.rs`
lines 169-175. -/
structure SignedBody (T : Type) where
  params : T
  did : String
  signing_key_did : String
  signed_bytes : String

/-- External collaborators of `SignedBody::verify_signature`
(`src/api/mod.rs` lines 178-218), as explicit oracles:

* `now` — `chrono::Utc::now()`, in (possibly fractional) seconds since the
  epoch;
* `didDocAtprotoKey did` — the DID-document fetch combined with the
  `pointer("/verificationMethods/atproto")` string read: `none` when the
  fetch itself fails, `some k` otherwise, where `k` is the registered key
  (already `unwrap_or_default`-ed to `""` when the pointer is absent);
* `decodeVerifyingKey` — the `did:key:z` split / bs58 / SEC1 decoding
  pipeline for the claimed signing key (`none` when any step fails);
* `decodeSignature` — hex decode plus `Signature::from_slice`;
* `dagcbor` — `serde_ipld_dagcbor::to_vec` over the params (canonical
  DAG-CBOR bytes);
* `ecdsaVerify key msg sig` — the k256 ECDSA verification primitive. -/
structure VerifierEnv (T : Type) where
  now : ℚ
  didDocAtprotoKey : String → Option String
  decodeVerifyingKey : String → Option (List Nat)
  decodeSignature : String → Option (List Nat)
  dagcbor : T → Option (List Nat)
  ecdsaVerify : List Nat → List Nat → List Nat → Bool

/-- Embedding of `SignedBody::verify_signature` from `src/api/mod.rs` lines 178-218.
`timestamp` is the `SignedParam::timestamp` accessor of `T`; the freshness
window is `chrono::Duration::minutes(5)` = 300 seconds, compared against
`(now - timestamp).abs()`.  (The far-range clamp in chrono for
`from_timestamp_secs` — timestamps beyond roughly ±2.6·10^5 years are
mapped to the epoch — is outside the modelled domain.) -/
def SignedBody.verify_signature {T : Type} (timestamp : T → Int)
    (env : VerifierEnv T) (body : SignedBody T) : Except String Unit :=
  if 300 < |env.now - (timestamp body.params : ℚ)| then
    Except.error "timestamp is invalid"
  else
    match env.didDocAtprotoKey body.did with
    | none => Except.error "get did doc failed"
    | some registered =>
      if body.signing_key_did ≠ registered then
        Except.error "signing_key_did not match"
      else
        match env.decodeVerifyingKey body.signing_key_did with
        | none => Except.error "invalid signing_key_did"
        | some verifying_key =>
          match env.decodeSignature body.signed_bytes with
          | none => Except.error "signature decode failed"
          | some signature =>
            match env.dagcbor body.params with
            | none => Except.error "encode params failed"
            | some unsigned_bytes =>
              if env.ecdsaVerify verifying_key unsigned_bytes signature then
                Except.ok ()
              else Except.error "verify signature failed"

/-- Modelled from the spec: byte strings (`Vec<u8>`) are lists of byte
values. -/
abbrev Bytes := List Nat

/-- Modelled from the spec: the crate module `smt` (`CkbSMT`,
`Blake2bHasher`, `SMT_VALUE`) is declared in `lib.rs` but absent from the
source tree.  Per spec §4.3/§4.4 the sparse Merkle tree commits to a set of
32-byte keys (blake2b lock-script hashes), each bound to a fixed non-zero
leaf value, and its 32-byte root is a collision-resistant commitment to
that set.  The model represents a key by the natural number its 32 bytes
denote in big-endian (an injective coding) and the root hash by the
committed key set itself — a perfect hash. -/
abbrev SmtKey := Nat

/-- Modelled from the spec: the in-memory SMT, identified with the set of
keys holding the non-zero leaf value (see `SmtKey`). -/
abbrev CkbSMT := Finset SmtKey

/-- Modelled from the spec: the fixed non-zero leaf value `SMT_VALUE`
(spec §4.3, "a fixed non-zero leaf value (presence flag)"). -/
def SMT_VALUE : Nat := 1

/-- Embedding of `smt_tree.update(key, SMT_VALUE)` as used in this codebase (always with
the fixed non-zero value): insert the key into the committed set. -/
def CkbSMT.update (t : CkbSMT) (key : SmtKey) : CkbSMT := insert key t

/-- The SMT-building loop shared by `get_proof` and `build_vote_meta`
(`src/api/vote.rs` lines 151-160 and 637-646): every whitelist entry that
hex-decodes to exactly 32 bytes is inserted with `SMT_VALUE`; entries that
fail to decode are skipped.  `hexDecode32` is the `hex::decode` +
`try_into::<[u8; 32]>` pipeline. -/
def buildSmt (hexDecode32 : String → Option SmtKey) (entries : List String) :
    CkbSMT :=
  entries.foldl
    (fun t s =>
      match hexDecode32 s with
      | some key => t.update key
      | none => t) ∅

/-- Modelled from the spec: `merkle_proof(vec![key]).compile(vec![key])` —
the compiled single-key membership proof of the SMT library.  In the model it is
the committed set with the queried key removed; `smtVerify` reinserts the
leaf and compares against the root. -/
def smtCompiledProof (t : CkbSMT) (key : SmtKey) : Finset SmtKey :=
  t.erase key

/-- Modelled from the spec: `CompiledMerkleProof::verify::<Blake2bHasher>`
for a single `(key, value)` leaf — recompute the root implied by the proof
together with the leaf (a zero value marks an absent leaf) and compare it
with the supplied root. -/
def smtVerify (proof : Finset SmtKey) (root : CkbSMT) (key : SmtKey)
    (value : Nat) : Bool :=
  decide ((if value ≠ 0 then insert key proof else proof) = root)

/-- Embedding of `i64::to_be_bytes` / `u64` big-endian packing: the 8 bytes of the
residue of `x` modulo 2^64 (two-s-complement packing). -/
def i64be (x : Int) : Bytes :=
  let n := (x % (2 : Int) ^ 64).toNat
  [n / 2 ^ 56 % 256, n / 2 ^ 48 % 256, n / 2 ^ 40 % 256, n / 2 ^ 32 % 256,
    n / 2 ^ 24 % 256, n / 2 ^ 16 % 256, n / 2 ^ 8 % 256, n % 256]

/-- The in-memory `molecules::VoteMeta` message assembled by
`build_vote_meta` (`src/api/vote.rs` lines 651-683): candidate name table,
optional SMT root, big-endian 64-bit start/end times, optional extra
binding hash. -/
structure VoteMetaMsg where
  candidates : List String
  smt_root_hash : Option CkbSMT
  start_time : Int
  end_time : Int
  extra : Option Bytes
deriving DecidableEq

/-- A deterministic length prefix for variable-length fields of the
modelled codec. -/
def lenPrefixed (b : Bytes) : Bytes := i64be (Int.ofNat b.length) ++ b

/-- The UTF-32 code points of a string, standing in for its byte string. -/
def strBytes (s : String) : Bytes := s.data.map Char.toNat

/-- Modelled from the spec: `molecules::VoteMeta::as_bytes` — the
deterministic table/struct codec (the `molecules` module is declared in
`lib.rs` but absent from the source tree) serialising the message as the
unambiguous length-prefixed concatenation of the candidate name table, the
optional root, the big-endian 64-bit start/end values and the optional
extra hash (spec §4.4 "Binary encoding"). -/
def encodeVoteMetaMsg (m : VoteMetaMsg) : Bytes :=
  lenPrefixed
    ((m.candidates.map (fun c => lenPrefixed (strBytes c))).foldr
      (fun a b => a ++ b) [])
  ++ (match m.smt_root_hash with
      | some t =>
        1 :: lenPrefixed
          (((t.sort (fun a b => a ≤ b)).map (Nat.digits 256)).foldr
            (fun a b => a ++ b) [])
      | none => [0])
  ++ i64be m.start_time
  ++ i64be m.end_time
  ++ (match m.extra with
      | some b => 1 :: lenPrefixed b
      | none => [0])

/-- Embedding of `VoteWhitelistRow` from `src/lexicon/vote_whitelist.rs` (`created` is a
timestamp in seconds). -/
structure VoteWhitelistRow where
  id : String
  list : List String
  root_hash : String
  created : Int
deriving DecidableEq

/-- Embedding of `VoteMetaRow` from `src/lexicon/vote_meta.rs`.  `state` uses the typed
`VoteMetaState` (its `i32` codes are a persistence detail), `results` the
decoded `VoteResults` JSON, and `created` a timestamp in seconds. -/
structure VoteMetaRec where
  id : Int
  proposal_state : Int
  state : VoteMetaState
  tx_hash : Option String
  proposal_uri : String
  whitelist_id : String
  candidates : List String
  start_time : Int
  end_time : Int
  creator : String
  results : Option VoteResults
  created : Int
deriving DecidableEq

/-- Embedding of `build_vote_meta` from `src/api/vote.rs` lines 624-684: fetch the bound
whitelist row (`none` propagates the query failure), rebuild the SMT from
its entries, and assemble the canonical `molecules::VoteMeta` message from
the stored fields plus the proposal-binding hash. -/
def build_vote_meta (whitelist : String → Option VoteWhitelistRow)
    (hexDecode32 : String → Option SmtKey) (row : VoteMetaRec)
    (proposal_hash : Bytes) : Option VoteMetaMsg :=
  match whitelist row.whitelist_id with
  | none => none
  | some wl =>
    some
      { candidates := row.candidates
        smt_root_hash := some (buildSmt hexDecode32 wl.list)
        start_time := row.start_time
        end_time := row.end_time
        extra := some proposal_hash }

/-- Embedding of `ckb_jsonrpc_types::Status` as matched by `check_vote_meta_tx`. -/
inductive TxStatus where
  | Pending
  | Proposed
  | Committed
  | Unknown
  | Rejected
deriving DecidableEq, Repr

/-- The transaction body part read by `check_vote_meta_tx`: its
`outputs_data` list. -/
structure TxView where
  outputs_data : List Bytes
deriving DecidableEq

/-- Oracles of `check_vote_meta_tx` (`src/scheduler/check_vote_meta_tx.rs`):
`getTransaction h = none` models an RPC failure or an absent transaction
(either leaves the row untouched); otherwise the chain status together
with the optional transaction body (`none` when the node answers with the
non-`Left` form).  `proposalHash` is
`blake2b_256(serde_json::to_vec(uri))`, `now` is `chrono::Local::now()` in
seconds. -/
structure ChainEnv where
  getTransaction : String → Option (TxStatus × Option TxView)
  whitelist : String → Option VoteWhitelistRow
  hexDecode32 : String → Option SmtKey
  proposalHash : String → Bytes
  now : Int

/-- The per-row decision of `check_vote_meta_tx`
(`src/scheduler/check_vote_meta_tx.rs` lines 62-120) for a row already
selected by the `state = Waiting` filter: `some s` is the state the job
writes for the row, `none` means no update is written (the `continue`
paths — pending/proposed status, unknown status within the 3-minute grace
period — an RPC failure, a row without a transaction hash, or the panic on
`outputs_data[0]` of a committed transaction with an empty output list,
which aborts the job before any write). -/
def vote_meta_tx_step (env : ChainEnv) (row : VoteMetaRec) :
    Option VoteMetaState :=
  match row.tx_hash with
  | none => none
  | some txh =>
    match env.getTransaction txh with
    | none => none
    | some (status, body) =>
      match status with
      | TxStatus.Committed =>
        match build_vote_meta env.whitelist env.hexDecode32 row
            (env.proposalHash row.proposal_uri) with
        | some vote_meta =>
          match body with
          | some tx =>
            match tx.outputs_data[0]? with
            | some o =>
              if o = encodeVoteMetaMsg vote_meta then
                some VoteMetaState.Committed
              else some VoteMetaState.Changed
            | none => none
          | none => some VoteMetaState.Changed
        | none => some VoteMetaState.Changed
      | TxStatus.Pending => none
      | TxStatus.Proposed => none
      | TxStatus.Unknown =>
        if 180 < env.now - row.created then some VoteMetaState.Timeout
        else none
      | TxStatus.Rejected => some VoteMetaState.Rejected

/-- One pass of the `check_vote_meta_tx` job over the `vote_meta` table
(`src/scheduler/check_vote_meta_tx.rs` lines 44-215): the SQL select
restricts to rows whose state is `Waiting`; each selected row is updated to
the state chosen by `vote_meta_tx_step` (the follow-up writes of the job go to
the `proposal` and `timeline` tables, never back to `vote_meta` rows). -/
def check_vote_meta_tx (env : ChainEnv) (rows : List VoteMetaRec) :
    List VoteMetaRec :=
  rows.map fun r =>
    if r.state = VoteMetaState.Waiting then
      match vote_meta_tx_step env r with
      | some s => { r with state := s }
      | none => r
    else r

/-- The chain tip/epoch view read by `check_vote_meta_finished`
(`get_tip_block_number` / `get_current_epoch`). -/
structure EpochView where
  tipBlockNumber : Nat
  epochNumber : Nat
  epochLength : Nat
  epochStartNumber : Nat
deriving DecidableEq

/-- The vote-window test of `check_vote_meta_finished`
(`src/scheduler/check_vote_finished.rs` lines 90-104):
`EpochNumberWithFraction::from_full_value` unpacks the stored `end_time`
into a 24-bit epoch number, 16-bit index and 16-bit length; the window is
still open (the row is skipped) while the end epoch number is in the
future, or it equals the current epoch number and the end fraction
(`index/length`, `f64` modelled as `ℚ`) still exceeds the current fraction
(current index = tip block number minus epoch start). -/
def voteWindowOpen (e : EpochView) (end_time : Int) : Bool :=
  let et : Nat := (end_time % (2 : Int) ^ 64).toNat
  let endNumber : Nat := et % 2 ^ 24
  let endIndex : Nat := et / 2 ^ 24 % 2 ^ 16
  let endLength : Nat := et / 2 ^ 40 % 2 ^ 16
  let currentIndex : Nat := e.tipBlockNumber - e.epochStartNumber
  decide (e.epochNumber < endNumber
    ∨ (endNumber = e.epochNumber
        ∧ mkRat currentIndex e.epochLength < mkRat endIndex endLength))

/-- Oracles of `check_vote_meta_finished`
(`src/scheduler/check_vote_finished.rs`): the epoch view and the
`all_votes` vote indexer, keyed here by the transaction hash of the row (`none`
models an indexer failure, whose `?` aborts the run before this row is
updated).  The proposal lookup and `calculate_vote_result` that follow the
row update only write to the `proposal`/`task`/`timeline` tables. -/
structure FinishEnv where
  epoch : EpochView
  allVotes : String → Option (List IndexedVote)

/-- The per-row behaviour of `check_vote_meta_finished`
(`src/scheduler/check_vote_finished.rs` lines 79-198) for a row already
selected by the `state = Committed` filter: `some tally` when the vote
window has elapsed and the final tally was pulled — the job then writes
`results := tally` and `state := Finished` in one update
(`VoteMeta::update_results`, `src/lexicon/vote_meta.rs` lines 136-148);
`none` when the window is still open, the row has no transaction hash (the
source `unwrap`s it: a panic, nothing written), or the vote indexer fails. -/
def vote_finished_step (env : FinishEnv) (row : VoteMetaRec) :
    Option VoteResults :=
  match row.tx_hash with
  | none => none
  | some txh =>
    if voteWindowOpen env.epoch row.end_time then none
    else
      match env.allVotes txh with
      | none => none
      | some votes => some (tallyVotes row.candidates votes)

/-- One pass of the `check_vote_meta_finished` job over the `vote_meta`
table (`src/scheduler/check_vote_finished.rs` lines 55-385): the SQL select
restricts to rows whose state is `Committed`; a finished row receives its
tally and the `Finished` state. -/
def check_vote_meta_finished (env : FinishEnv) (rows : List VoteMetaRec) :
    List VoteMetaRec :=
  rows.map fun r =>
    if r.state = VoteMetaState.Committed then
      match vote_finished_step env r with
      | some tally =>
        { r with state := VoteMetaState.Finished, results := some tally }
      | none => r
    else r

/-- The error outcomes of `get_proof` (`src/api/vote.rs` lines 137-189):
the whitelist-row query failure (sqlx row-not-found, surfaced by the
`proof` handler as a validation error), the address-parsing failure, and
the local verification failure ("Not in the whitelist"). -/
inductive GetProofError where
  | rowNotFound
  | addressParse
  | notInWhitelist
deriving DecidableEq, Repr

/-- Oracles of `get_proof` (`src/api/vote.rs` lines 137-189): the
`vote_whitelist` row lookup by snapshot id, the hex decoding of stored
list entries, and the address pipeline `AddressParser::parse` +
`Script::calc_script_hash` producing the 32-byte SMT key of an address. -/
structure ProofEnv where
  whitelistRow : String → Option VoteWhitelistRow
  hexDecode32 : String → Option SmtKey
  lockHashKey : String → Option SmtKey

/-- Embedding of `get_proof` from `src/api/vote.rs` lines 137-189: fetch the snapshot
row, rebuild the SMT from its stored list, take its root, derive the
lock-script-hash key of the requester, produce and compile the single-key
proof, and verify it locally against the root; only a verifying
(root, compiled-proof) pair is returned, and a failed verification is the
"Not in the whitelist" error. -/
def get_proof (env : ProofEnv) (whitelist_id ckb_addr : String) :
    Except GetProofError (CkbSMT × Finset SmtKey) :=
  match env.whitelistRow whitelist_id with
  | none => Except.error GetProofError.rowNotFound
  | some row =>
    let smt_tree := buildSmt env.hexDecode32 row.list
    match env.lockHashKey ckb_addr with
    | none => Except.error GetProofError.addressParse
    | some key =>
      let compiled_proof := smtCompiledProof smt_tree key
      if smtVerify compiled_proof smt_tree key SMT_VALUE then
        Except.ok (smt_tree, compiled_proof)
      else Except.error GetProofError.notInWhitelist

/-- Modelled from the spec: `AppError` lives in the crate module `error`
(declared in `lib.rs`, file absent from the source tree); the variants are
those of the §7 error taxonomy of the spec as used at the `src/api` call sites
(`ValidateFailed`, `NotFound`, `ExecSqlFailed`), plus a catch-all for
propagated collaborator failures. -/
inductive AppError where
  | ValidateFailed (msg : String)
  | NotFound
  | ExecSqlFailed (msg : String)
  | Internal (msg : String)
deriving DecidableEq, Repr

/-- The proposal row fields read by `initiation_vote`
(`src/lexicon/proposal.rs`, `ProposalRow`, restricted to the fields the
handler touches). -/
structure ProposalRec where
  uri : String
  repo : String
  state : Int
deriving DecidableEq, Repr

/-- The slice of the relational store touched by `initiation_vote` and
`create_vote_tx`. -/
structure Db where
  proposals : List ProposalRec
  voteMetas : List VoteMetaRec
deriving DecidableEq

/-- Oracles of `initiation_vote` (`src/api/proposal.rs` lines 441-518) and
`create_vote_tx` (`src/api/mod.rs` lines 221-292):

* `signatureOk` — the outcome of `SignedBody::verify_signature`;
* `meetingFinished uri` — whether a meeting row for the proposal with
  `proposal_state = Draft` and `state = Finished` exists;
* `ckbAddr did` — `get_ckb_addr_by_did` (`none` = resolver failure);
* `weight addr` — the weight oracle (`none` = hard error);
* `latestWhitelist` — the newest `vote_whitelist` row, if any;
* `voteTimeRange` — `test_get_vote_time_range` (`none` = chain failure);
* `buildVoteMetaOk` — whether the `build_vote_meta` call for the fresh or
  reused row succeeds;
* `now` — `chrono::Local::now()` in seconds;
* `newId` — the id the SQL insert returns for a fresh row. -/
structure InitiationEnv where
  signatureOk : Bool
  meetingFinished : String → Bool
  ckbAddr : String → Option String
  weight : String → Option Nat
  latestWhitelist : Option VoteWhitelistRow
  voteTimeRange : Option (Int × Int)
  buildVoteMetaOk : Bool
  now : Int
  newId : Int

/-- Embedding of `create_vote_tx` from `src/api/mod.rs` lines 221-292, as a transformer
of the store slice: reuse the active `Waiting` VoteMeta of
`(proposal_uri, proposal_state)` when one exists, otherwise insert a fresh
one bound to the newest whitelist and the fetched time window; when the
chosen row has no transaction hash yet, the canonical vote-meta payload is
built for the response (a `build_vote_meta` failure there surfaces as an
error — after the insert, if one happened). -/
def create_vote_tx (env : InitiationEnv) (db : Db) (proposal_uri : String)
    (proposal_state : Int) (creator : String) : Db × Except AppError Unit :=
  match db.voteMetas.find? (fun m =>
      decide (m.proposal_uri = proposal_uri
        ∧ m.proposal_state = proposal_state
        ∧ m.state = VoteMetaState.Waiting)) with
  | some vote_meta_row =>
    if vote_meta_row.tx_hash = none then
      (db,
        if env.buildVoteMetaOk then Except.ok ()
        else Except.error (AppError.Internal "build vote meta failed"))
    else (db, Except.ok ())
  | none =>
    match env.latestWhitelist with
    | none => (db, Except.error (AppError.Internal "vote whitelist not found"))
    | some wl =>
      match env.voteTimeRange with
      | none =>
        (db, Except.error (AppError.Internal "get vote time range failed"))
      | some time_range =>
        let vote_meta_row : VoteMetaRec :=
          { id := env.newId
            proposal_state := proposal_state
            state := VoteMetaState.Waiting
            tx_hash := none
            proposal_uri := proposal_uri
            whitelist_id := wl.id
            candidates := ["Abstain", "Agree", "Against"]
            start_time := time_range.1
            end_time := time_range.2
            creator := creator
            results := none
            created := env.now }
        ({ db with voteMetas := db.voteMetas ++ [vote_meta_row] },
          if env.buildVoteMetaOk then Except.ok ()
          else Except.error (AppError.Internal "build vote meta failed"))

/-- Embedding of `initiation_vote` from `src/api/proposal.rs` lines 441-518: verify the
request signature, fetch the proposal, check the four preconditions
(owner, `Draft` state, finished AMA meeting, weight at least
`10_000_000_000_000`), then create or reuse the stage-2
(`InitiationVote`) VoteMeta via `create_vote_tx`.  The trailing
`Task::complete` is best-effort and touches only the task table, so it is
outside the modelled slice. -/
def initiation_vote (env : InitiationEnv) (db : Db)
    (proposal_uri did : String) : Db × Except AppError Unit :=
  if env.signatureOk = false then
    (db, Except.error (AppError.ValidateFailed "signature verify failed"))
  else
    match db.proposals.find? (fun p => decide (p.uri = proposal_uri)) with
    | none => (db, Except.error (AppError.ExecSqlFailed "no rows returned"))
    | some proposal_row =>
      if proposal_row.repo ≠ did then
        (db, Except.error (AppError.ValidateFailed "not proposal owner"))
      else if proposal_row.state ≠ 1 then
        (db, Except.error (AppError.ValidateFailed "proposal state not draft"))
      else if env.meetingFinished proposal_uri = false then
        (db,
          Except.error (AppError.ValidateFailed "AMA meeting not completed"))
      else
        match env.ckbAddr did with
        | none => (db, Except.error (AppError.Internal "get ckb addr failed"))
        | some ckb_addr =>
          match env.weight ckb_addr with
          | none => (db, Except.error (AppError.Internal "get weight failed"))
          | some weight =>
            if weight < 10000000000000 then
              (db,
                Except.error (AppError.ValidateFailed
                  "not enough weight(At least 100_000 ckb)"))
            else create_vote_tx env db proposal_uri 2 did

/-! ## Theorems -/

theorem sum_set_getD_add (l : List Nat) (i w : Nat) (h : i < l.length) :
    (l.set i (l.getD i 0 + w)).sum = l.sum + w := by
  induction l generalizing i with
  | nil => simp at h
  | cons a t ih =>
    cases i with
    | zero => simp [List.getD]; omega
    | succ n =>
      have hn : n < t.length := by simpa using h
      simp [List.getD] at ih ⊢
      rw [ih n hn]
      omega

/-- The tally produced by `check_vote_meta_finished` satisfies the
invariant assumed in `candidate_share_strict_mono`: `valid_weight_sum` is
the sum of the per-candidate weight totals. -/
theorem tallyVotes_valid_weight_sum_eq_sum (candidates : List String)
    (votes : List IndexedVote) :
    (tallyVotes candidates votes).valid_weight_sum
      = (tallyVotes candidates votes).candidate_votes.sum := by
  suffices h : ∀ (vs : List IndexedVote) (acc : VoteResults),
      acc.valid_weight_sum = acc.candidate_votes.sum →
      (vs.foldl tallyStep acc).valid_weight_sum
        = (vs.foldl tallyStep acc).candidate_votes.sum by
    apply h
    simp
  intro vs
  induction vs with
  | nil => intro acc hacc; exact hacc
  | cons v rest ih =>
    intro acc hacc
    apply ih
    unfold tallyStep
    dsimp only
    split_ifs with hcond
    · simp only [sum_set_getD_add _ _ _ hcond.2, hacc]
    · simpa using hacc

theorem share_eq_div (w v : Nat) : share w v = (w : ℚ) / (v : ℚ) := by
  simp [share, Rat.mkRat_eq_div]

theorem threshold67_eq : threshold67 = 67 / 100 := by
  simp [threshold67, Rat.mkRat_eq_div]

theorem threshold51_eq : threshold51 = 51 / 100 := by
  simp [threshold51, Rat.mkRat_eq_div]

/-- Claim C1: For a vote at stage `InitiationVote` (state 2) or `ReexamineVote`
(state 11) on a proposal of the budget-scaled category (`proposal_type`
other than `"BudgetProposal"`), with declared budget `b` (denominated in
CKB, i.e. `B = b * 10^8` weight units), the outcome engine returns `Failed`
whenever `valid_weight_sum < 3 × B`; quorum is inclusive (`valid_weight_sum
= 3 × B` falls in the quorum-met branch, `3 × B - 1` in the failed branch);
and once quorum is met it returns `Agree` iff the agree-share
(candidate-1 weight over `valid_weight_sum`) is at least 51%, else
`Against`. -/
theorem initiation_budget_scaled_outcome (ps : Int) (hps : ps = 2 ∨ ps = 11)
    (p : ProposalSample) (b : Nat) (hb : p.budget = some b) (pt : String)
    (hpt : pt ≠ "BudgetProposal") (r : VoteResults) (w : Nat)
    (hw : r.candidate_votes[1]? = some w) :
    (r.valid_weight_sum < 3 * (b * 100000000) →
      calculate_vote_result ps p r pt
        = some (VoteResult.Failed "valid_weight_sum not enough(3x budget)"))
    ∧ (3 * (b * 100000000) ≤ r.valid_weight_sum →
        (calculate_vote_result ps p r pt = some VoteResult.Agree
            ↔ threshold51 ≤ share w r.valid_weight_sum)
          ∧ (¬ threshold51 ≤ share w r.valid_weight_sum →
              calculate_vote_result ps p r pt
                = some (VoteResult.Against "agree rate not enough(51%)"))) := by
  have key : calculate_vote_result ps p r pt =
      if b * 300000000 ≤ r.valid_weight_sum then
        if threshold51 ≤ share w r.valid_weight_sum then some VoteResult.Agree
        else some (VoteResult.Against "agree rate not enough(51%)")
      else some (VoteResult.Failed "valid_weight_sum not enough(3x budget)") := by
    rcases hps with rfl | rfl <;>
      simp [calculate_vote_result, ProposalState.ofInt, hpt, hb, hw]
  have h3 : 3 * (b * 100000000) = b * 300000000 := by ring
  rw [key, h3]
  refine ⟨fun hlt => by rw [if_neg (by omega)], fun hge => ?_⟩
  rw [if_pos hge]
  refine ⟨?_, fun h51 => by rw [if_neg h51]⟩
  split_ifs with h51 <;> simp [h51]

theorem initiation_budget_scaled_outcome_witness :
    calculate_vote_result 2 ⟨2, some 10⟩
        ⟨3, 3, 3000000000, 3000000000, [], [0, 2000000000, 1000000000]⟩ "X"
      = some VoteResult.Agree
    ∧ calculate_vote_result 11 ⟨2, some 10⟩
        ⟨3, 3, 2999999999, 2999999999, [], [0, 2000000000, 999999999]⟩ "X"
      = some (VoteResult.Failed "valid_weight_sum not enough(3x budget)") := by
  constructor
  · exact ((initiation_budget_scaled_outcome 2 (Or.inl rfl) ⟨2, some 10⟩ 10 rfl "X"
      (by decide) ⟨3, 3, 3000000000, 3000000000, [], [0, 2000000000, 1000000000]⟩
      2000000000 rfl).2 (by decide)).1.mpr (by decide)
  · exact (initiation_budget_scaled_outcome 11 (Or.inr rfl) ⟨2, some 10⟩ 10 rfl "X"
      (by decide) ⟨3, 3, 2999999999, 2999999999, [], [0, 2000000000, 999999999]⟩
      2000000000 rfl).1 (by decide)

/-- Claim C4: For a vote at stage `MilestoneVote` (state 5) or `DelayVote`
(state 6): below-quorum tallies (quorum `6200_0000_0000_0000` for the
fixed-quorum `"BudgetProposal"` category, `1 × B` with `B = b * 10^8`
weight units for the budget-scaled category) yield `Agree` (default pass);
once quorum is met the verdict is `Against` iff the against-share
(candidate-2 weight over `valid_weight_sum`) strictly exceeds 67%
(fixed-quorum) resp. 51% (budget-scaled), else `Agree`. -/
theorem milestone_delay_outcome (ps : Int) (hps : ps = 5 ∨ ps = 6)
    (p : ProposalSample) (r : VoteResults) (w : Nat)
    (hw : r.candidate_votes[2]? = some w) :
    ((r.valid_weight_sum < 6200000000000000 →
        calculate_vote_result ps p r "BudgetProposal" = some VoteResult.Agree)
      ∧ (6200000000000000 ≤ r.valid_weight_sum →
          (calculate_vote_result ps p r "BudgetProposal"
              = some (VoteResult.Against "against rate too high(67%)")
            ↔ threshold67 < share w r.valid_weight_sum)
          ∧ (¬ threshold67 < share w r.valid_weight_sum →
              calculate_vote_result ps p r "BudgetProposal"
                = some VoteResult.Agree)))
    ∧ (∀ pt b, pt ≠ "BudgetProposal" → p.budget = some b →
        (r.valid_weight_sum < 1 * (b * 100000000) →
          calculate_vote_result ps p r pt = some VoteResult.Agree)
        ∧ (1 * (b * 100000000) ≤ r.valid_weight_sum →
            (calculate_vote_result ps p r pt
                = some (VoteResult.Against "against rate too high(51%)")
              ↔ threshold51 < share w r.valid_weight_sum)
            ∧ (¬ threshold51 < share w r.valid_weight_sum →
                calculate_vote_result ps p r pt = some VoteResult.Agree))) := by
  constructor
  · have key : calculate_vote_result ps p r "BudgetProposal" =
        if 6200000000000000 ≤ r.valid_weight_sum then
          if threshold67 < share w r.valid_weight_sum then
            some (VoteResult.Against "against rate too high(67%)")
          else some VoteResult.Agree
        else some VoteResult.Agree := by
      rcases hps with rfl | rfl <;>
        simp [calculate_vote_result, ProposalState.ofInt, hw]
    rw [key]
    refine ⟨fun hlt => by rw [if_neg (by omega)], fun hge => ?_⟩
    rw [if_pos hge]
    refine ⟨?_, fun h67 => by rw [if_neg h67]⟩
    split_ifs with h67 <;> simp [h67]
  · intro pt b hpt hb
    have key : calculate_vote_result ps p r pt =
        if b * 100000000 ≤ r.valid_weight_sum then
          if threshold51 < share w r.valid_weight_sum then
            some (VoteResult.Against "against rate too high(51%)")
          else some VoteResult.Agree
        else some VoteResult.Agree := by
      rcases hps with rfl | rfl <;>
        simp [calculate_vote_result, ProposalState.ofInt, hpt, hb, hw]
    have h1 : 1 * (b * 100000000) = b * 100000000 := by ring
    rw [key, h1]
    refine ⟨fun hlt => by rw [if_neg (by omega)], fun hge => ?_⟩
    rw [if_pos hge]
    refine ⟨?_, fun h51 => by rw [if_neg h51]⟩
    split_ifs with h51 <;> simp [h51]

theorem milestone_delay_outcome_witness :
    calculate_vote_result 5 ⟨5, some 10⟩
        ⟨2, 2, 100, 100, [], [0, 30, 70]⟩ "BudgetProposal"
      = some VoteResult.Agree
    ∧ calculate_vote_result 6 ⟨6, some 10⟩
        ⟨2, 2, 1000000000, 1000000000, [], [0, 100000000, 900000000]⟩ "X"
      = some (VoteResult.Against "against rate too high(51%)") := by
  constructor
  · exact ((milestone_delay_outcome 5 (Or.inl rfl) ⟨5, some 10⟩
      ⟨2, 2, 100, 100, [], [0, 30, 70]⟩ 70 rfl).1.1 (by decide))
  · exact (((milestone_delay_outcome 6 (Or.inr rfl) ⟨6, some 10⟩
      ⟨2, 2, 1000000000, 1000000000, [], [0, 100000000, 900000000]⟩ 900000000 rfl).2
      "X" 10 (by decide) rfl).2 (by decide)).1.mpr (by decide)

/-- Claim C3: For a vote at stage `RectificationVote` (state 12): below-quorum
tallies (quorum `6200_0000_0000_0000` for the fixed-quorum
`"BudgetProposal"` category, `1 × B` with `B = b * 10^8` weight units for
the budget-scaled category) yield `Against` — the opposite of the
`MilestoneVote`/`DelayVote` stages, where the same below-quorum tallies
yield `Agree` (last conjunct); once quorum is met, `Agree` is returned iff
the agree-share is at least 67% (fixed-quorum) resp. 51% (budget-scaled),
else `Against`. -/
theorem rectification_outcome (ps : Int) (hps : ps = 12)
    (p : ProposalSample) (r : VoteResults) (w : Nat)
    (hw : r.candidate_votes[1]? = some w) :
    ((r.valid_weight_sum < 6200000000000000 →
        calculate_vote_result ps p r "BudgetProposal"
          = some (VoteResult.Against "valid_weight_sum not enough(1.85T)"))
      ∧ (6200000000000000 ≤ r.valid_weight_sum →
          (calculate_vote_result ps p r "BudgetProposal" = some VoteResult.Agree
            ↔ threshold67 ≤ share w r.valid_weight_sum)
          ∧ (¬ threshold67 ≤ share w r.valid_weight_sum →
              calculate_vote_result ps p r "BudgetProposal"
                = some (VoteResult.Against "agree rate not enough(67%)"))))
    ∧ (∀ pt b, pt ≠ "BudgetProposal" → p.budget = some b →
        (r.valid_weight_sum < 1 * (b * 100000000) →
          calculate_vote_result ps p r pt
            = some (VoteResult.Against "valid_weight_sum not enough(3x budget)"))
        ∧ (1 * (b * 100000000) ≤ r.valid_weight_sum →
            (calculate_vote_result ps p r pt = some VoteResult.Agree
              ↔ threshold51 ≤ share w r.valid_weight_sum)
            ∧ (¬ threshold51 ≤ share w r.valid_weight_sum →
                calculate_vote_result ps p r pt
                  = some (VoteResult.Against "agree rate not enough(51%)"))))
    ∧ (∀ ps2, (ps2 = 5 ∨ ps2 = 6) →
        (r.valid_weight_sum < 6200000000000000 →
          calculate_vote_result ps2 p r "BudgetProposal" = some VoteResult.Agree)
        ∧ (∀ pt b, pt ≠ "BudgetProposal" → p.budget = some b →
            r.valid_weight_sum < 1 * (b * 100000000) →
            calculate_vote_result ps2 p r pt = some VoteResult.Agree)) := by
  subst hps
  refine ⟨?_, ?_, ?_⟩
  · have key : calculate_vote_result 12 p r "BudgetProposal" =
        if 6200000000000000 ≤ r.valid_weight_sum then
          if threshold67 ≤ share w r.valid_weight_sum then some VoteResult.Agree
          else some (VoteResult.Against "agree rate not enough(67%)")
        else some (VoteResult.Against "valid_weight_sum not enough(1.85T)") := by
      simp [calculate_vote_result, ProposalState.ofInt, hw]
    rw [key]
    refine ⟨fun hlt => by rw [if_neg (by omega)], fun hge => ?_⟩
    rw [if_pos hge]
    refine ⟨?_, fun h67 => by rw [if_neg h67]⟩
    split_ifs with h67 <;> simp [h67]
  · intro pt b hpt hb
    have key : calculate_vote_result 12 p r pt =
        if b * 100000000 ≤ r.valid_weight_sum then
          if threshold51 ≤ share w r.valid_weight_sum then some VoteResult.Agree
          else some (VoteResult.Against "agree rate not enough(51%)")
        else some (VoteResult.Against "valid_weight_sum not enough(3x budget)") := by
      simp [calculate_vote_result, ProposalState.ofInt, hpt, hb, hw]
    have h1 : 1 * (b * 100000000) = b * 100000000 := by ring
    rw [key, h1]
    refine ⟨fun hlt => by rw [if_neg (by omega)], fun hge => ?_⟩
    rw [if_pos hge]
    refine ⟨?_, fun h51 => by rw [if_neg h51]⟩
    split_ifs with h51 <;> simp [h51]
  · intro ps2 hps2
    constructor
    · intro hlt
      rcases hps2 with rfl | rfl <;>
        simp [calculate_vote_result, ProposalState.ofInt, hw, Nat.not_le.mpr hlt]
    · intro pt b hpt hb hlt
      rw [one_mul] at hlt
      rcases hps2 with rfl | rfl <;>
        simp [calculate_vote_result, ProposalState.ofInt, hpt, hb, hw,
          Nat.not_le.mpr hlt]

theorem rectification_outcome_witness :
    calculate_vote_result 12 ⟨12, some 10⟩
        ⟨2, 2, 100, 100, [], [0, 80, 20]⟩ "BudgetProposal"
      = some (VoteResult.Against "valid_weight_sum not enough(1.85T)")
    ∧ calculate_vote_result 5 ⟨12, some 10⟩
        ⟨2, 2, 100, 100, [], [0, 80, 20]⟩ "BudgetProposal"
      = some VoteResult.Agree := by
  have h := rectification_outcome 12 rfl ⟨12, some 10⟩
    ⟨2, 2, 100, 100, [], [0, 80, 20]⟩ 80 rfl
  exact ⟨h.1.1 (by decide), (h.2.2 5 (Or.inl rfl)).1 (by decide)⟩

theorem getD_le_sum (l : List Nat) (j : Nat) : l.getD j 0 ≤ l.sum := by
  induction l generalizing j with
  | nil => simp
  | cons a t ih =>
    cases j with
    | zero => simp
    | succ n =>
      calc t.getD n 0 ≤ t.sum := ih n
        _ ≤ a + t.sum := Nat.le_add_left _ _

theorem share_lt_share_add (w d v : Nat) (hd : 0 < d) (hv : 0 < v) :
    share w v < share (w + d) v := by
  rw [share_eq_div, share_eq_div]
  have hv2 : (0 : ℚ) < v := by exact_mod_cast hv
  rw [div_lt_div_iff_of_pos_right hv2]
  exact_mod_cast Nat.lt_add_of_pos_right hd

/-- Claim C9: Holding `valid_weight_sum` fixed, moving a positive amount `d` of
weight onto candidate `i` from another candidate `j` strictly increases the
derived share of candidate `i` computed by the outcome engine.  The
hypothesis `hwf` (`valid_weight_sum` is the sum of the per-candidate
weights) is the invariant of every tally the engine is handed; it is proved
for the tally loop below (`tallyVotes_valid_weight_sum_eq_sum`). -/
theorem candidate_share_strict_mono (r r' : VoteResults) (i j d : Nat)
    (hwf : r.valid_weight_sum = r.candidate_votes.sum)
    (hv : r'.valid_weight_sum = r.valid_weight_sum)
    (hij : i ≠ j) (hi : i < r.candidate_votes.length)
    (_hj : j < r.candidate_votes.length)
    (hd : 0 < d) (hdj : d ≤ r.candidate_votes.getD j 0)
    (hcv : r'.candidate_votes =
      (r.candidate_votes.set i (r.candidate_votes.getD i 0 + d)).set j
        (r.candidate_votes.getD j 0 - d)) :
    r.shareOf i < r'.shareOf i := by
  have hvpos : 0 < r.valid_weight_sum := by
    have h1 : 0 < r.candidate_votes.getD j 0 := lt_of_lt_of_le hd hdj
    have h2 := getD_le_sum r.candidate_votes j
    omega
  have hgi : r'.candidate_votes.getD i 0 = r.candidate_votes.getD i 0 + d := by
    rw [hcv]
    have hi2 : i < ((r.candidate_votes.set i
        (r.candidate_votes.getD i 0 + d)).set j
          (r.candidate_votes.getD j 0 - d)).length := by
      simpa using hi
    rw [List.getD_eq_getElem _ _ hi2, List.getElem_set_ne (Ne.symm hij),
      List.getElem_set_self, List.getD_eq_getElem _ _ hi]
  unfold VoteResults.shareOf
  rw [hv, hgi]
  exact share_lt_share_add _ _ _ hd hvpos

theorem candidate_share_strict_mono_witness :
    VoteResults.shareOf ⟨2, 2, 3, 3, [], [1, 2]⟩ 1
      < VoteResults.shareOf ⟨2, 2, 3, 3, [], [0, 3]⟩ 1 :=
  candidate_share_strict_mono ⟨2, 2, 3, 3, [], [1, 2]⟩ ⟨2, 2, 3, 3, [], [0, 3]⟩
    1 0 1 (by decide) (by decide) (by decide) (by decide) (by decide)
    (by decide) (by decide) (by decide)

/-- Claim C10: The outcome engine is total (never hits the `none`/panic path)
for every tally whose `candidate_votes` has at least 3 entries; but a
quorum-met tally with fewer than 2 entries panics at the voting stages that
read the Agree slot (`InitiationVote`, `ReexamineVote`,
`RectificationVote`), and one with fewer than 3 entries panics at the
stages that read the Against slot (`MilestoneVote`, `DelayVote`): the
candidate layout `[Abstain, Agree, Against]` is a hard requirement. -/
theorem calculate_vote_result_totality_and_panic (ps : Int) (p : ProposalSample)
    (r : VoteResults) (pt : String) :
    (3 ≤ r.candidate_votes.length →
      (calculate_vote_result ps p r pt).isSome = true)
    ∧ ((ps = 2 ∨ ps = 11) → r.candidate_votes.length < 2 →
        ((pt = "BudgetProposal" ∧ 1850000000000000 ≤ r.valid_weight_sum)
          ∨ (pt ≠ "BudgetProposal"
              ∧ ∃ b, p.budget = some b ∧ b * 300000000 ≤ r.valid_weight_sum)) →
        calculate_vote_result ps p r pt = none)
    ∧ (ps = 12 → r.candidate_votes.length < 2 →
        ((pt = "BudgetProposal" ∧ 6200000000000000 ≤ r.valid_weight_sum)
          ∨ (pt ≠ "BudgetProposal"
              ∧ ∃ b, p.budget = some b ∧ b * 100000000 ≤ r.valid_weight_sum)) →
        calculate_vote_result ps p r pt = none)
    ∧ ((ps = 5 ∨ ps = 6) → r.candidate_votes.length < 3 →
        ((pt = "BudgetProposal" ∧ 6200000000000000 ≤ r.valid_weight_sum)
          ∨ (pt ≠ "BudgetProposal"
              ∧ ∃ b, p.budget = some b ∧ b * 100000000 ≤ r.valid_weight_sum)) →
        calculate_vote_result ps p r pt = none) := by
  refine ⟨?_, ?_, ?_, ?_⟩
  · intro hlen
    obtain ⟨w1, hw1⟩ : ∃ w, r.candidate_votes[1]? = some w :=
      ⟨_, List.getElem?_eq_getElem (by omega)⟩
    obtain ⟨w2, hw2⟩ : ∃ w, r.candidate_votes[2]? = some w :=
      ⟨_, List.getElem?_eq_getElem (by omega)⟩
    rcases h : ProposalState.ofInt ps <;>
      rcases hpb : p.budget with _ | b <;>
        simp [calculate_vote_result, h, hpb, hw1, hw2] <;>
          split_ifs <;> simp
  · intro hps hlen hcat
    have hw1 : r.candidate_votes[1]? = none := List.getElem?_eq_none (by omega)
    rcases hcat with ⟨hpt, hq⟩ | ⟨hpt, b, hb, hq⟩
    · rcases hps with rfl | rfl <;>
        simp [calculate_vote_result, ProposalState.ofInt, hpt, hw1, hq]
    · rcases hps with rfl | rfl <;>
        simp [calculate_vote_result, ProposalState.ofInt, hpt, hb, hw1, hq]
  · intro hps hlen hcat
    subst hps
    have hw1 : r.candidate_votes[1]? = none := List.getElem?_eq_none (by omega)
    rcases hcat with ⟨hpt, hq⟩ | ⟨hpt, b, hb, hq⟩
    · simp [calculate_vote_result, ProposalState.ofInt, hpt, hw1, hq]
    · simp [calculate_vote_result, ProposalState.ofInt, hpt, hb, hw1, hq]
  · intro hps hlen hcat
    have hw2 : r.candidate_votes[2]? = none := List.getElem?_eq_none (by omega)
    rcases hcat with ⟨hpt, hq⟩ | ⟨hpt, b, hb, hq⟩
    · rcases hps with rfl | rfl <;>
        simp [calculate_vote_result, ProposalState.ofInt, hpt, hw2, hq]
    · rcases hps with rfl | rfl <;>
        simp [calculate_vote_result, ProposalState.ofInt, hpt, hb, hw2, hq]

theorem calculate_vote_result_totality_and_panic_witness :
    (calculate_vote_result 0 ⟨0, none⟩ ⟨0, 0, 0, 0, [], [1, 2, 3]⟩ "X").isSome
        = true
    ∧ calculate_vote_result 2 ⟨2, none⟩
        ⟨0, 0, 0, 1850000000000000, [], []⟩ "BudgetProposal" = none
    ∧ calculate_vote_result 12 ⟨12, none⟩
        ⟨0, 0, 0, 6200000000000000, [], [7]⟩ "BudgetProposal" = none
    ∧ calculate_vote_result 5 ⟨5, none⟩
        ⟨0, 0, 0, 6200000000000000, [], [1, 2]⟩ "BudgetProposal" = none := by
  refine ⟨(calculate_vote_result_totality_and_panic 0 _ _ _).1 (by decide),
    (calculate_vote_result_totality_and_panic 2 _ _ _).2.1
      (Or.inl rfl) (by decide) (Or.inl ⟨rfl, by decide⟩),
    (calculate_vote_result_totality_and_panic 12 _ _ _).2.2.1
      rfl (by decide) (Or.inl ⟨rfl, by decide⟩),
    (calculate_vote_result_totality_and_panic 5 _ _ _).2.2.2
      (Or.inl rfl) (by decide) (Or.inl ⟨rfl, by decide⟩)⟩

/-- Claim C7: the function `verify_signature` accepts iff every check passes — embedded
timestamp within 5 minutes (300 s) of now in either direction, claimed
signing key equal to the registered one, both decodes succeeding, ECDSA
verification succeeding; a payload 301 seconds old is rejected whatever
the other inputs are, while one 299 seconds old with a matching registered
key, successful decodes and a correct signature is accepted. -/
theorem verify_signature_spec {T : Type} (timestamp : T → Int)
    (env : VerifierEnv T) (body : SignedBody T) :
    (SignedBody.verify_signature timestamp env body = Except.ok () ↔
      (|env.now - (timestamp body.params : ℚ)| ≤ 300
        ∧ env.didDocAtprotoKey body.did = some body.signing_key_did
        ∧ ∃ vk, env.decodeVerifyingKey body.signing_key_did = some vk
            ∧ ∃ sg, env.decodeSignature body.signed_bytes = some sg
            ∧ ∃ bs, env.dagcbor body.params = some bs
            ∧ env.ecdsaVerify vk bs sg = true))
    ∧ (env.now - (timestamp body.params : ℚ) = 301 →
        SignedBody.verify_signature timestamp env body
          = Except.error "timestamp is invalid")
    ∧ (env.now - (timestamp body.params : ℚ) = 299 →
        env.didDocAtprotoKey body.did = some body.signing_key_did →
        ∀ vk sg bs, env.decodeVerifyingKey body.signing_key_did = some vk →
          env.decodeSignature body.signed_bytes = some sg →
          env.dagcbor body.params = some bs →
          env.ecdsaVerify vk bs sg = true →
          SignedBody.verify_signature timestamp env body = Except.ok ()) := by
  refine ⟨?_, ?_, ?_⟩
  · rcases le_or_lt |env.now - (timestamp body.params : ℚ)| 300 with hts | hts
    · rcases hdoc : env.didDocAtprotoKey body.did with _ | k
      · simp [SignedBody.verify_signature, not_lt.mpr hts, hdoc]
      · by_cases hkey : body.signing_key_did = k
        · subst hkey
          rcases hvk : env.decodeVerifyingKey body.signing_key_did with _ | vk
          · simp [SignedBody.verify_signature, not_lt.mpr hts, hdoc, hvk]
          · rcases hsg : env.decodeSignature body.signed_bytes with _ | sg
            · simp [SignedBody.verify_signature, not_lt.mpr hts, hdoc, hvk,
                hsg]
            · rcases hbs : env.dagcbor body.params with _ | bs
              · simp [SignedBody.verify_signature, not_lt.mpr hts, hdoc, hvk,
                  hsg, hbs]
              · by_cases hv : env.ecdsaVerify vk bs sg = true
                · simp [SignedBody.verify_signature, not_lt.mpr hts, hdoc,
                    hvk, hsg, hbs, hv, hts]
                · simp [SignedBody.verify_signature, not_lt.mpr hts, hdoc,
                    hvk, hsg, hbs, hv]
        · simp [SignedBody.verify_signature, not_lt.mpr hts, hdoc, hkey,
            Ne.symm hkey]
    · simp [SignedBody.verify_signature, hts, not_le.mpr hts]
  · intro heq
    have h301 : 300 < |env.now - (timestamp body.params : ℚ)| := by
      rw [heq]
      rw [abs_of_pos (by norm_num)]
      norm_num
    simp [SignedBody.verify_signature, h301]
  · intro heq hdoc vk sg bs hvk hsg hbs hv
    have h299 : ¬ 300 < |env.now - (timestamp body.params : ℚ)| := by
      rw [heq, abs_of_pos (by norm_num)]
      norm_num
    simp [SignedBody.verify_signature, h299, hdoc, hvk, hsg, hbs, hv]

theorem verify_signature_spec_witness :
    SignedBody.verify_signature (fun t : Int => t)
      ⟨1000, fun _ => some "k", fun _ => some [1], fun _ => some [2],
        fun _ => some [3], fun _ _ _ => true⟩
      ⟨701, "d", "k", "s"⟩ = Except.ok ()
    ∧ SignedBody.verify_signature (fun t : Int => t)
      ⟨1000, fun _ => some "k", fun _ => some [1], fun _ => some [2],
        fun _ => some [3], fun _ _ _ => true⟩
      ⟨699, "d", "k", "s"⟩ = Except.error "timestamp is invalid" := by
  constructor
  · exact (verify_signature_spec (fun t : Int => t) _ _).2.2 (by norm_num) rfl
      [1] [2] [3] rfl rfl rfl rfl
  · exact (verify_signature_spec (fun t : Int => t) _ _).2.1 (by norm_num)

/-- Claim C5: The VoteMeta lifecycle is monotonic under both reconciliation
jobs: the transaction-status poll selects only `Waiting` rows and the
vote-finish job selects only `Committed` rows, so a record already in
`Finished`, `Rejected`, `Timeout` or `Changed` is never transitioned to
any other state — in particular a late-arriving chain confirmation never
overwrites a `Timeout` or `Rejected` mark. -/
theorem vote_meta_lifecycle_monotonic (envA : ChainEnv) (envB : FinishEnv)
    (rows : List VoteMetaRec) (i : Nat) (r : VoteMetaRec)
    (hr : rows[i]? = some r)
    (hterm : r.state = VoteMetaState.Finished
      ∨ r.state = VoteMetaState.Rejected
      ∨ r.state = VoteMetaState.Timeout
      ∨ r.state = VoteMetaState.Changed) :
    (check_vote_meta_tx envA rows)[i]? = some r
      ∧ (check_vote_meta_finished envB rows)[i]? = some r := by
  have hw : ¬ r.state = VoteMetaState.Waiting := by
    rcases hterm with h | h | h | h <;> simp [h]
  have hc : ¬ r.state = VoteMetaState.Committed := by
    rcases hterm with h | h | h | h <;> simp [h]
  constructor
  · simp [check_vote_meta_tx, List.getElem?_map, hr, hw]
  · simp [check_vote_meta_finished, List.getElem?_map, hr, hc]

theorem vote_meta_lifecycle_monotonic_witness :
    (check_vote_meta_tx
        ⟨fun _ => some (TxStatus.Committed, none), fun _ => none,
          fun _ => none, fun _ => [], 0⟩
        [⟨1, 2, VoteMetaState.Timeout, some "0xabc", "u", "w", [], 0, 0, "c",
          none, 0⟩])[0]?
      = some ⟨1, 2, VoteMetaState.Timeout, some "0xabc", "u", "w", [], 0, 0,
          "c", none, 0⟩ :=
  (vote_meta_lifecycle_monotonic
    ⟨fun _ => some (TxStatus.Committed, none), fun _ => none, fun _ => none,
      fun _ => [], 0⟩
    ⟨⟨0, 0, 1, 0⟩, fun _ => none⟩
    [⟨1, 2, VoteMetaState.Timeout, some "0xabc", "u", "w", [], 0, 0, "c",
      none, 0⟩]
    0 _ rfl (Or.inr (Or.inr (Or.inl rfl)))).1

/-- Claim C2: for a `Waiting` VoteMeta whose tracked transaction reports
chain-committed status, the reconciliation step writes `Committed` iff the
first output data of the transaction is byte-identical to the canonical
re-encoding (via `build_vote_meta`) of the stored VoteMeta fields
(candidate list, eligibility SMT root, big-endian start/end times, extra
proposal-binding hash); a failed re-encode, a missing transaction body, or
any byte mismatch writes `Changed` instead. -/
theorem committed_tx_payload_check (env : ChainEnv) (rows : List VoteMetaRec)
    (i : Nat) (r : VoteMetaRec) (txh : String) (body : Option TxView)
    (hr : rows[i]? = some r) (hst : r.state = VoteMetaState.Waiting)
    (htx : r.tx_hash = some txh)
    (hobs : env.getTransaction txh = some (TxStatus.Committed, body)) :
    ((check_vote_meta_tx env rows)[i]?
        = some { r with state := VoteMetaState.Committed }
      ↔ ∃ vote_meta,
          build_vote_meta env.whitelist env.hexDecode32 r
            (env.proposalHash r.proposal_uri) = some vote_meta
          ∧ ∃ tx, body = some tx
              ∧ tx.outputs_data[0]? = some (encodeVoteMetaMsg vote_meta))
    ∧ (build_vote_meta env.whitelist env.hexDecode32 r
          (env.proposalHash r.proposal_uri) = none →
        (check_vote_meta_tx env rows)[i]?
          = some { r with state := VoteMetaState.Changed })
    ∧ (body = none →
        (check_vote_meta_tx env rows)[i]?
          = some { r with state := VoteMetaState.Changed })
    ∧ (∀ vote_meta tx o,
        build_vote_meta env.whitelist env.hexDecode32 r
          (env.proposalHash r.proposal_uri) = some vote_meta →
        body = some tx → tx.outputs_data[0]? = some o →
        o ≠ encodeVoteMetaMsg vote_meta →
        (check_vote_meta_tx env rows)[i]?
          = some { r with state := VoteMetaState.Changed }) := by
  have hrow : ∀ s, vote_meta_tx_step env r = some s →
      (check_vote_meta_tx env rows)[i]? = some { r with state := s } := by
    intro s hs
    simp [check_vote_meta_tx, List.getElem?_map, hr, hst, hs]
  have hrow2 : vote_meta_tx_step env r = none →
      (check_vote_meta_tx env rows)[i]? = some r := by
    intro hs
    simp [check_vote_meta_tx, List.getElem?_map, hr, hst, hs]
  refine ⟨⟨?_, ?_⟩, ?_, ?_, ?_⟩
  · intro h
    rcases hbuild : build_vote_meta env.whitelist env.hexDecode32 r
        (env.proposalHash r.proposal_uri) with _ | vm
    · rw [hrow VoteMetaState.Changed
        (by simp [vote_meta_tx_step, htx, hobs, hbuild])] at h
      simp at h
    · rcases hbody : body with _ | tx
      · rw [hrow VoteMetaState.Changed
          (by simp [vote_meta_tx_step, htx, hobs, hbuild, hbody])] at h
        simp at h
      · rcases hout : tx.outputs_data[0]? with _ | o
        · rw [hrow2
            (by simp [vote_meta_tx_step, htx, hobs, hbuild, hbody, hout])] at h
          have h2 := Option.some.inj h
          have h3 : r.state = VoteMetaState.Committed := by rw [h2]
          rw [hst] at h3
          exact absurd h3 (by decide)
        · by_cases heq : o = encodeVoteMetaMsg vm
          · exact ⟨vm, rfl, tx, rfl, by rw [hout, heq]⟩
          · rw [hrow VoteMetaState.Changed
              (by simp [vote_meta_tx_step, htx, hobs, hbuild, hbody, hout,
                heq])] at h
            simp at h
  · rintro ⟨vm, hbuild, tx, hbody, hout⟩
    exact hrow VoteMetaState.Committed
      (by simp [vote_meta_tx_step, htx, hobs, hbuild, hbody, hout])
  · intro hbuild
    exact hrow VoteMetaState.Changed
      (by simp [vote_meta_tx_step, htx, hobs, hbuild])
  · intro hbody
    subst hbody
    rcases hbuild : build_vote_meta env.whitelist env.hexDecode32 r
        (env.proposalHash r.proposal_uri) with _ | vm <;>
      exact hrow VoteMetaState.Changed
        (by simp [vote_meta_tx_step, htx, hobs, hbuild])
  · intro vm tx o hbuild hbody hout hne
    exact hrow VoteMetaState.Changed
      (by simp [vote_meta_tx_step, htx, hobs, hbuild, hbody, hout, hne])

theorem committed_tx_payload_check_witness :
    (check_vote_meta_tx
        ⟨fun _ => some (TxStatus.Committed,
            some ⟨[encodeVoteMetaMsg ⟨["Abstain", "Agree", "Against"],
              some (buildSmt (fun _ => none) []), 3, 4, some [9]⟩]⟩),
          fun _ => some ⟨"w", [], "", 0⟩, fun _ => none, fun _ => [9], 0⟩
        [⟨1, 2, VoteMetaState.Waiting, some "h", "u", "w",
          ["Abstain", "Agree", "Against"], 3, 4, "c", none, 0⟩])[0]?
      = some { (⟨1, 2, VoteMetaState.Waiting, some "h", "u", "w",
          ["Abstain", "Agree", "Against"], 3, 4, "c", none, 0⟩ : VoteMetaRec)
          with state := VoteMetaState.Committed } :=
  (committed_tx_payload_check _ _ 0 _ "h" _ rfl rfl rfl rfl).1.mpr
    ⟨⟨["Abstain", "Agree", "Against"], some (buildSmt (fun _ => none) []),
      3, 4, some [9]⟩, rfl,
      ⟨[encodeVoteMetaMsg ⟨["Abstain", "Agree", "Against"],
        some (buildSmt (fun _ => none) []), 3, 4, some [9]⟩]⟩, rfl, rfl⟩

theorem mem_buildSmt (dec : String → Option SmtKey) (l : List String)
    (k : SmtKey) :
    k ∈ buildSmt dec l ↔ ∃ s ∈ l, dec s = some k := by
  suffices h : ∀ init : Finset SmtKey,
      (k ∈ l.foldl (fun t s =>
        match dec s with
        | some key => CkbSMT.update t key
        | none => t) init
      ↔ k ∈ init ∨ ∃ s ∈ l, dec s = some k) by
    simpa [buildSmt] using h ∅
  induction l with
  | nil => intro init; simp
  | cons a rest ih =>
    intro init
    rcases hda : dec a with _ | ka
    · simp only [List.foldl_cons, hda]
      rw [ih]
      constructor
      · rintro (h | ⟨s, hs, hdec⟩)
        · exact Or.inl h
        · exact Or.inr ⟨s, List.mem_cons_of_mem _ hs, hdec⟩
      · rintro (h | ⟨s, hs, hdec⟩)
        · exact Or.inl h
        · rcases List.mem_cons.mp hs with rfl | hs2
          · rw [hda] at hdec
            cases hdec
          · exact Or.inr ⟨s, hs2, hdec⟩
    · simp only [List.foldl_cons, hda]
      rw [ih]
      simp only [CkbSMT.update, Finset.mem_insert]
      constructor
      · rintro ((rfl | h2) | ⟨s, hs, hdec⟩)
        · exact Or.inr ⟨a, List.mem_cons_self a rest, by rw [hda]⟩
        · exact Or.inl h2
        · exact Or.inr ⟨s, List.mem_cons_of_mem _ hs, hdec⟩
      · rintro (h | ⟨s, hs, hdec⟩)
        · exact Or.inl (Or.inr h)
        · rcases List.mem_cons.mp hs with rfl | hs2
          · rw [hda] at hdec
            exact Or.inl (Or.inl (Option.some.inj hdec).symm)
          · exact Or.inr ⟨s, hs2, hdec⟩

/-- Claim C6: Membership proofs are locally verified before being returned:
for an address whose lock-script-hash key appears (after hex decoding) in
the stored snapshot list, `get_proof` returns the (root, compiled-proof)
pair built from that list; for an address whose key is not in the list it
fails with the not-eligible error ("Not in the whitelist"); every returned
pair verifies against the returned root; and an id with no stored snapshot
row fails with the not-found error. -/
theorem get_proof_spec (env : ProofEnv) (wid addr : String)
    (row : VoteWhitelistRow) (hrow : env.whitelistRow wid = some row)
    (key : SmtKey) (hkey : env.lockHashKey addr = some key) :
    ((∃ s ∈ row.list, env.hexDecode32 s = some key) →
      get_proof env wid addr
        = Except.ok (buildSmt env.hexDecode32 row.list,
            smtCompiledProof (buildSmt env.hexDecode32 row.list) key))
    ∧ (¬ (∃ s ∈ row.list, env.hexDecode32 s = some key) →
        get_proof env wid addr = Except.error GetProofError.notInWhitelist)
    ∧ (∀ root proof, get_proof env wid addr = Except.ok (root, proof) →
        smtVerify proof root key SMT_VALUE = true)
    ∧ (∀ wid2, env.whitelistRow wid2 = none →
        get_proof env wid2 addr = Except.error GetProofError.rowNotFound) := by
  have hget : get_proof env wid addr =
      if smtVerify
          (smtCompiledProof (buildSmt env.hexDecode32 row.list) key)
          (buildSmt env.hexDecode32 row.list) key SMT_VALUE then
        Except.ok (buildSmt env.hexDecode32 row.list,
          smtCompiledProof (buildSmt env.hexDecode32 row.list) key)
      else Except.error GetProofError.notInWhitelist := by
    simp [get_proof, hrow, hkey]
  have hver : ∀ _hk : key ∈ buildSmt env.hexDecode32 row.list,
      smtVerify (smtCompiledProof (buildSmt env.hexDecode32 row.list) key)
        (buildSmt env.hexDecode32 row.list) key SMT_VALUE = true := by
    intro hk
    simp [smtVerify, smtCompiledProof, SMT_VALUE, Finset.insert_erase hk]
  have hver2 : ∀ _hk : key ∉ buildSmt env.hexDecode32 row.list,
      smtVerify (smtCompiledProof (buildSmt env.hexDecode32 row.list) key)
        (buildSmt env.hexDecode32 row.list) key SMT_VALUE = false := by
    intro hk
    simp only [smtVerify, smtCompiledProof, SMT_VALUE,
      Finset.erase_eq_of_not_mem hk]
    simp [Finset.insert_eq_self, hk]
  refine ⟨?_, ?_, ?_, ?_⟩
  · intro hmem
    rw [hget, if_pos (hver ((mem_buildSmt env.hexDecode32 row.list key).mpr
      hmem))]
  · intro hmem
    have hfalse := hver2 (fun hk =>
      hmem ((mem_buildSmt env.hexDecode32 row.list key).mp hk))
    rw [hget, hfalse]
    simp
  · intro root proof h
    rw [hget] at h
    by_cases hcond : smtVerify
        (smtCompiledProof (buildSmt env.hexDecode32 row.list) key)
        (buildSmt env.hexDecode32 row.list) key SMT_VALUE = true
    · rw [if_pos hcond] at h
      simp only [Except.ok.injEq, Prod.mk.injEq] at h
      obtain ⟨h1, h2⟩ := h
      rw [← h1, ← h2]
      exact hcond
    · rw [if_neg hcond] at h
      simp at h
  · intro wid2 h2
    simp [get_proof, h2]

theorem get_proof_spec_witness :
    get_proof
      ⟨fun _ => some ⟨"w", ["aa"], "", 0⟩,
        fun s => if s = "aa" then some 5 else none,
        fun _ => some 5⟩ "w" "addr"
      = Except.ok
          (buildSmt (fun s => if s = "aa" then some 5 else none) ["aa"],
            smtCompiledProof
              (buildSmt (fun s => if s = "aa" then some 5 else none) ["aa"])
              5) :=
  (get_proof_spec _ "w" "addr" ⟨"w", ["aa"], "", 0⟩ rfl 5 rfl).1
    ⟨"aa", by decide, by decide⟩

theorem create_vote_tx_preserves_proposals (env : InitiationEnv) (db : Db)
    (uri : String) (st : Int) (creator : String) :
    (create_vote_tx env db uri st creator).1.proposals = db.proposals := by
  unfold create_vote_tx
  repeat' split
  all_goals rfl

/-- Claim C8: the `Draft → InitiationVote` transition succeeds only when the
actor owns the proposal, the proposal is in `Draft` (state 1), a meeting
for it is marked `Finished`, and the weight of the actor meets the fixed
minimum of `10^13` weight units (100 000 CKB; the source accepts exactly
the minimum); each unmet precondition produces the validation error naming
it while leaving the store exactly as it was (no VoteMeta row appears),
and the proposal table is never written by this operation at all. -/
theorem initiation_vote_preconditions (env : InitiationEnv) (db : Db)
    (uri did : String) (p : ProposalRec)
    (hp : db.proposals.find? (fun q => decide (q.uri = uri)) = some p)
    (hsig : env.signatureOk = true) :
    ((initiation_vote env db uri did).2 = Except.ok () →
      p.repo = did ∧ p.state = 1 ∧ env.meetingFinished uri = true
        ∧ ∃ a w, env.ckbAddr did = some a ∧ env.weight a = some w
            ∧ 10000000000000 ≤ w)
    ∧ (p.repo ≠ did →
        initiation_vote env db uri did
          = (db, Except.error (AppError.ValidateFailed "not proposal owner")))
    ∧ (p.repo = did → p.state ≠ 1 →
        initiation_vote env db uri did
          = (db,
              Except.error
                (AppError.ValidateFailed "proposal state not draft")))
    ∧ (p.repo = did → p.state = 1 → env.meetingFinished uri = false →
        initiation_vote env db uri did
          = (db,
              Except.error
                (AppError.ValidateFailed "AMA meeting not completed")))
    ∧ (∀ a w, p.repo = did → p.state = 1 →
        env.meetingFinished uri = true →
        env.ckbAddr did = some a → env.weight a = some w →
        w < 10000000000000 →
        initiation_vote env db uri did
          = (db,
              Except.error (AppError.ValidateFailed
                "not enough weight(At least 100_000 ckb)")))
    ∧ (initiation_vote env db uri did).1.proposals = db.proposals := by
  have hbase : initiation_vote env db uri did =
      (if p.repo ≠ did then
        (db, Except.error (AppError.ValidateFailed "not proposal owner"))
      else if p.state ≠ 1 then
        (db, Except.error (AppError.ValidateFailed "proposal state not draft"))
      else if env.meetingFinished uri = false then
        (db, Except.error (AppError.ValidateFailed "AMA meeting not completed"))
      else
        match env.ckbAddr did with
        | none => (db, Except.error (AppError.Internal "get ckb addr failed"))
        | some ckb_addr =>
          match env.weight ckb_addr with
          | none => (db, Except.error (AppError.Internal "get weight failed"))
          | some weight =>
            if weight < 10000000000000 then
              (db,
                Except.error (AppError.ValidateFailed
                  "not enough weight(At least 100_000 ckb)"))
            else create_vote_tx env db uri 2 did) := by
    simp [initiation_vote, hsig, hp]
  refine ⟨?_, ?_, ?_, ?_, ?_, ?_⟩
  · intro hok
    rw [hbase] at hok
    by_cases h1 : p.repo = did
    · by_cases h2 : p.state = 1
      · cases h3 : env.meetingFinished uri with
        | false => simp [h1, h2, h3] at hok
        | true =>
          rcases ha : env.ckbAddr did with _ | a
          · simp [h1, h2, h3, ha] at hok
          · rcases hw : env.weight a with _ | w
            · simp [h1, h2, h3, ha, hw] at hok
            · by_cases h4 : w < 10000000000000
              · simp [h1, h2, h3, ha, hw, h4] at hok
              · exact ⟨h1, h2, rfl, a, w, rfl, hw, by omega⟩
      · simp [h1, h2] at hok
    · simp [h1] at hok
  · intro h1
    rw [hbase, if_pos h1]
  · intro h1 h2
    rw [hbase, if_neg (by simp [h1]), if_pos h2]
  · intro h1 h2 h3
    rw [hbase, if_neg (by simp [h1]), if_neg (by simp [h2]), if_pos h3]
  · intro a w h1 h2 h3 ha hw h4
    rw [hbase]
    simp [h1, h2, h3, ha, hw, h4]
  · rw [hbase]
    split_ifs
    any_goals rfl
    rcases ha : env.ckbAddr did with _ | a
    · simp [ha]
    · rcases hw : env.weight a with _ | w
      · simp [ha, hw]
      · by_cases h4 : w < 10000000000000
        · simp [ha, hw, h4]
        · simp [ha, hw, h4, create_vote_tx_preserves_proposals]

theorem initiation_vote_preconditions_witness :
    initiation_vote
      ⟨true, fun _ => true, fun _ => some "a", fun _ => some 0, none, none,
        true, 0, 0⟩
      ⟨[⟨"u", "alice", 1⟩], []⟩ "u" "bob"
      = (⟨[⟨"u", "alice", 1⟩], []⟩,
          Except.error (AppError.ValidateFailed "not proposal owner")) :=
  (initiation_vote_preconditions
    ⟨true, fun _ => true, fun _ => some "a", fun _ => some 0, none, none,
      true, 0, 0⟩
    ⟨[⟨"u", "alice", 1⟩], []⟩ "u" "bob" ⟨"u", "alice", 1⟩ (by decide)
    rfl).2.1 (by decide)

end AppView
